import Mathlib

/-!
# Verification of the GenAI test-platform Candidate Validation & Repair Pipeline

Shallow embedding of the Python sources:

* `src/tools/policy_checker_v2.py`   (Rule Engine / `TestPolicyChecker`)
* `src/llm_agent/universal_test_validator.py` (Repair Engine / `UniversalTestValidator`)
* `src/tools/evaluation_harness_v2.py` (Evaluation Harness / `TestEvaluationHarness`)
* `src/tools/hitl_validator_v2.py`   (Review Ledger / `HITLValidator`)

Modelling conventions:

* A candidate text is represented as its list of lines (`List String`); the
  Python code itself round-trips through `text.split('\n')` / `'\n'.join(...)`
  in every pass, and no transformation inserts a newline into a line, so the
  two views agree.
* Python string primitives (`strip`, `startswith`, `in`, `replace`, `lower`,
  `endswith`) are re-implemented over `List Char`, restricted to ASCII word
  characters where Python uses Unicode-aware `\w` (all strings in this
  development are ASCII).
* `ast.parse` (a CPython builtin, not repository code) is modelled by
  `pyParse`, an executable logical-line / indentation-block checker: blank and
  comment-only lines are ignored, a line whose code part ends in a colon opens
  a block which must be more-indented, an over-indented line is an
  "unexpected indent" error and a dedent must return to an enclosing level.
  Statement-internal grammar, bracket continuations and multi-line string
  literals are outside the modelled fragment; every concrete input evaluated
  in this development stays inside the fragment and `pyParse` agrees with
  CPython on all of them.
* The AST-walking rules of `_check_python_specific` that run *after* a
  successful parse (forbidden imports, test-function length, has-assertion)
  would need a full Python AST; they are abstracted as an environment
  parameter `astChecks`.  The syntax-error branch, which the claims are
  about, is modelled concretely.
* Scores are exact rationals (`ℚ`); Python float literals 0.2, 0.1, 0.05 …
  are modelled by the rationals they denote.
* Wall-clock fields (`execution_time`, timestamps) and `print` side effects
  are irrelevant to every claim and are omitted or threaded as opaque data.
-/

namespace GenAI

/-! ## Character-level string utilities (models of Python str primitives) -/

/-- Python whitespace characters recognised by `str.strip` / `\s`. -/
def isWSChar (c : Char) : Bool :=
  c = ' ' ∨ c = '\t' ∨ c = '\n' ∨ c = '\r' ∨ c = '\x0b' ∨ c = '\x0c'

/-- ASCII model of Python regex `\w` (word character). -/
def isWordChar (c : Char) : Bool :=
  (('a' ≤ c ∧ c ≤ 'z') ∨ ('A' ≤ c ∧ c ≤ 'Z') ∨ ('0' ≤ c ∧ c ≤ '9') ∨ c = '_')

/-- Drop leading whitespace of a character list. -/
def dropLeadWS : List Char → List Char
  | [] => []
  | c :: cs => if isWSChar c then dropLeadWS cs else c :: cs

/-- Model of Python `str.strip()` over a character list. -/
def stripChars (cs : List Char) : List Char :=
  ((dropLeadWS ((dropLeadWS cs.reverse)).reverse))

/-- Model of Python `str.strip()`. -/
def strip (s : String) : String :=
  String.mk (stripChars s.data)

/-- Prefix test over character lists. -/
def isPrefixL : List Char → List Char → Bool
  | [], _ => true
  | _ :: _, [] => false
  | p :: ps, c :: cs => p == c && isPrefixL ps cs

/-- Model of Python `str.startswith`. -/
def startsWithS (s pre : String) : Bool :=
  isPrefixL pre.data s.data

/-- Model of Python `str.endswith` over character lists. -/
def endsWithS (s suf : String) : Bool :=
  isPrefixL suf.data.reverse s.data.reverse

/-- Occurrence test: does `pat` occur as a contiguous sublist of `cs`? -/
def containsL (cs pat : List Char) : Bool :=
  match cs with
  | [] => pat.isEmpty
  | _ :: rest => isPrefixL pat cs ∨ containsL rest pat

/-- Model of Python `pat in s` (substring containment). -/
def containsSub (s pat : String) : Bool :=
  containsL s.data pat.data

/-- Worker for `replaceL`, structurally recursive on a character budget that
starts at the input length (each step consumes at least one character, so
the budget never runs out). -/
def replaceLAux (pat rep : List Char) : Nat → List Char → List Char
  | 0, cs => cs
  | _ + 1, [] => []
  | fuel + 1, c :: cs =>
    if isPrefixL pat (c :: cs) ∧ ¬ pat.isEmpty then
      rep ++ replaceLAux pat rep fuel (cs.drop (pat.length - 1))
    else
      c :: replaceLAux pat rep fuel cs

/-- Model of Python `str.replace(old, new)` (all occurrences, left to right);
`old` is assumed nonempty, as at every call site in the sources. -/
def replaceL (pat rep cs : List Char) : List Char :=
  replaceLAux pat rep cs.length cs

/-- Model of Python `str.replace`. -/
def replaceS (s pat rep : String) : String :=
  String.mk (replaceL pat.data rep.data s.data)

/-- Model of Python `str.lower()` restricted to ASCII. -/
def toLowerS (s : String) : String :=
  String.mk (s.data.map Char.toLower)

/-- Count of leading-whitespace display columns of a line, with tabs
advancing to the next multiple of 8 (CPython tokenizer / `str.expandtabs`). -/
def indentColAux : List Char → Nat → Nat
  | [], col => col
  | c :: cs, col =>
    if c = ' ' then indentColAux cs (col + 1)
    else if c = '\t' then indentColAux cs (col + 8 - col % 8)
    else col

/-- Indentation column of a line. -/
def indentCol (s : String) : Nat :=
  indentColAux s.data 0

/-- Leading whitespace run of a line (what Python `re.match(r'^\s*', line)`
captures). -/
def leadWSRun (cs : List Char) : List Char :=
  cs.takeWhile isWSChar

/-- Remainder after the leading whitespace run. -/
def afterLeadWS (cs : List Char) : List Char :=
  cs.dropWhile isWSChar

/-! ## Model of `ast.parse` (logical-line / indentation fragment) -/

/-- Kinds of syntax error produced by the modelled fragment of `ast.parse`.
`unexpectedIndentK` corresponds to CPython raising
`IndentationError: unexpected indent`; the other kinds carry messages that do
not contain the substring "unexpected indent". -/
inductive PyErrKind where
  | unexpectedIndentK : PyErrKind
  | expectedBlockK : PyErrKind
  | dedentMismatchK : PyErrKind
deriving DecidableEq, Repr

/-- The message text of the modelled `SyntaxError` (what Python `str(e)` /
`e.msg` expose, up to the location suffix, which no caller inspects). -/
def renderPyErr : PyErrKind → String
  | .unexpectedIndentK => "unexpected indent"
  | .expectedBlockK => "expected an indented block"
  | .dedentMismatchK => "unindent does not match any outer indentation level"

/-- Outcome of the modelled `ast.parse`: success, or a syntax error located
at a 1-based line number. -/
inductive PyParseResult where
  | ok : PyParseResult
  | err (lineno : Nat) (kind : PyErrKind) : PyParseResult
deriving DecidableEq, Repr

/-- The code part of a logical line: characters before a trailing comment
(string literals containing `#` are outside the modelled fragment). -/
def codePart (s : String) : String :=
  String.mk ((strip s).data.takeWhile (fun c => c ≠ '#'))

/-- Does this line open an indented block (its code part ends in a colon)? -/
def opensBlock (s : String) : Bool :=
  endsWithS (String.mk (stripChars (codePart s).data)) ":"

/-- Pop indentation levels until the top of the stack equals `ind`;
`none` models `IndentationError: unindent does not match ...`. -/
def popIndentTo (ind : Nat) : List Nat → Option (List Nat)
  | [] => none
  | t :: rest => if ind = t then some (t :: rest) else if ind < t then popIndentTo ind rest else none

/-- Main loop of the modelled parser: current 1-based line number, stack of
open indentation levels (innermost first, base level 0), and whether the
previous significant line opened a block. -/
def pyParseAux : List String → Nat → List Nat → Bool → PyParseResult
  | [], n, _, expectIndent =>
    if expectIndent then .err n .expectedBlockK else .ok
  | l :: ls, n, stack, expectIndent =>
    let s := strip l
    if s.isEmpty ∨ startsWithS s "#" then
      pyParseAux ls (n + 1) stack expectIndent
    else
      let ind := indentCol l
      let top := stack.headD 0
      if expectIndent then
        if top < ind then pyParseAux ls (n + 1) (ind :: stack) (opensBlock s)
        else .err n .expectedBlockK
      else if top < ind then .err n .unexpectedIndentK
      else
        match popIndentTo ind stack with
        | none => .err n .dedentMismatchK
        | some stack2 => pyParseAux ls (n + 1) stack2 (opensBlock s)

/-- Model of `ast.parse` on a candidate given as a list of lines. -/
def pyParse (lines : List String) : PyParseResult :=
  pyParseAux lines 1 [0] false

/-- Boolean view: does the candidate parse? -/
def pyParseOk (lines : List String) : Bool :=
  pyParse lines = .ok

/-! ## Repair Engine pass 1 helpers
(`UniversalTestValidator._fix_syntax_errors` internals) -/

/-- One line of the indentation normalization
`re.sub(r'^\s*', lambda m: '    ' * (len(m.group().expandtabs()) // 4), line)`:
the leading whitespace run is replaced by `4 * (expandedWidth / 4)` spaces;
blank lines become empty. -/
def normalizeLine (line : String) : String :=
  if (strip line).isEmpty then ""
  else
    let ws := leadWSRun line.data
    let k := (indentColAux ws 0) / 4
    String.mk (List.replicate (4 * k) ' ' ++ afterLeadWS line.data)

/-- The indentation normalization applied to every line. -/
def normalizeIndentation (lines : List String) : List String :=
  lines.map normalizeLine

/-- Model of `_create_minimal_test`: the placeholder test substituted for unfixably
unparseable candidates.  The original code is embedded in a trailing
triple-quoted string, with `"""` occurrences rewritten to `'''`. -/
def create_minimal_test (original : List String) : List String :=
  ["",
   "import pytest",
   "",
   "def test_placeholder():",
   "    \x22\x22\x22",
   "    Placeholder test - original code had syntax errors",
   "    \x22\x22\x22",
   "    assert True  # Replace with actual test logic",
   "    ",
   "# Original code (with errors):",
   "\x22\x22\x22"]
  ++ original.map (fun l => replaceS l "\x22\x22\x22" "\x27\x27\x27")
  ++ ["\x22\x22\x22", ""]

/-- The retry decision of `_fix_syntax_errors`: the indentation
normalization is applied only when the error message mentions
"IndentationError" or "unexpected indent"; otherwise the code is re-parsed
unchanged. -/
def syntax_retry_code (code : List String) (kind : PyErrKind) : List String :=
  if containsSub (renderPyErr kind) "IndentationError"
      ∨ containsSub (renderPyErr kind) "unexpected indent"
  then normalizeIndentation code else code

/-- Model of `_fix_syntax_errors` (Repair Engine pass 1).  On a parse failure the
retry code is computed and re-parsed; if it still fails to parse, the
minimal placeholder is substituted.  Returns the new code and the fix-log
entries appended by this pass. -/
def fix_syntax_errors (code : List String) : List String × List String :=
  match pyParse code with
  | .ok => (code, [])
  | .err n kind =>
    let entry := "Fixed syntax error at line " ++ toString n ++ ": " ++ renderPyErr kind
    let code1 := syntax_retry_code code kind
    match pyParse code1 with
    | .ok => (code1, [entry])
    | .err _ _ =>
      (create_minimal_test code1,
       [entry, "Created minimal test due to unfixable syntax errors"])

/-! ## Rule Engine (`TestPolicyChecker`, `src/tools/policy_checker_v2.py`) -/

/-- The `PolicyViolation` dataclass. -/
structure PolicyViolation where
  filePath : String
  line : Nat
  rule : String
  severity : String
  message : String
  codeSnippet : String := ""
deriving DecidableEq, Repr

/-- A forbidden-pattern rule: the literal regex text from the configuration
together with the model of `re.search(pattern, line)`. -/
structure ForbiddenPattern where
  regexSource : String
  regexMatch : String → Bool

/-- Occurrence of `pat` in `cs` such that the following character (if any)
satisfies `p`; `allowEnd` says whether end-of-line counts. -/
def containsFB (cs pat : List Char) (p : Char → Bool) (allowEnd : Bool) : Bool :=
  match cs with
  | [] => false
  | _ :: rest =>
    (isPrefixL pat cs &&
      (match cs.drop pat.length with
       | [] => allowEnd
       | c :: _ => p c))
    || containsFB rest pat p allowEnd

/-- Model of `re.search(pat ++ "\b", line)` for a pattern ending in a word
character: an occurrence followed by a non-word character or end of line. -/
def containsWordBoundary (s pat : String) : Bool :=
  containsFB s.data pat.data (fun c => ¬ isWordChar c) true

/-- Model of `re.search(pat ++ "\d+", line)`: an occurrence followed by a
digit. -/
def containsThenDigit (s pat : String) : Bool :=
  containsFB s.data pat.data (fun c => '0' ≤ c ∧ c ≤ '9') false

/-- The configured deny-list entry `assert True\b`. -/
def assert_true_pattern : ForbiddenPattern :=
  ⟨"assert True\\b", fun l => containsWordBoundary l "assert True"⟩

/-- The sixteen `forbidden_patterns` entries of
`TestPolicyChecker.default_config`, each paired with the model of its
`re.search` semantics (all are literal-substring patterns except the two
word-boundary patterns `\.real\b`, `assert True\b`, `assert False\b` and the
digit pattern `localhost:\d+`). -/
def default_forbidden_patterns : List ForbiddenPattern :=
  [⟨"time\\.sleep\\(", fun l => containsSub l "time.sleep("⟩,
   ⟨"Thread\\.sleep\\(", fun l => containsSub l "Thread.sleep("⟩,
   ⟨"setTimeout\\(", fun l => containsSub l "setTimeout("⟩,
   ⟨"random\\(\\)", fun l => containsSub l "random()"⟩,
   ⟨"Math\\.random\\(\\)", fun l => containsSub l "Math.random()"⟩,
   ⟨"new Date\\(\\)", fun l => containsSub l "new Date()"⟩,
   ⟨"datetime\\.now\\(\\)", fun l => containsSub l "datetime.now()"⟩,
   ⟨"\\.real\\b", fun l => containsWordBoundary l ".real"⟩,
   ⟨"localhost:\\d+", fun l => containsThenDigit l "localhost:"⟩,
   ⟨"127\\.0\\.0\\.1", fun l => containsSub l "127.0.0.1"⟩,
   ⟨"http://", fun l => containsSub l "http://"⟩,
   ⟨"https://", fun l => containsSub l "https://"⟩,
   assert_true_pattern,
   ⟨"assert False\\b", fun l => containsWordBoundary l "assert False"⟩,
   ⟨"assertTrue\\(True\\)", fun l => containsSub l "assertTrue(True)"⟩,
   ⟨"assertFalse\\(False\\)", fun l => containsSub l "assertFalse(False)"⟩]

/-- The configuration fields of `TestPolicyChecker.default_config` that the
concretely modelled rules read (`forbidden_imports`, `required_patterns`,
`allowed_test_imports` and `max_test_lines` are only read by the abstracted
AST-walk / non-Python rules). -/
structure PolicyConfig where
  forbiddenPatterns : List ForbiddenPattern
  maxFileSize : Nat

/-- The default configuration. -/
def policy_default_config : PolicyConfig :=
  { forbiddenPatterns := default_forbidden_patterns, maxFileSize := 10000 }

/-- Environment abstracting the rule parts that would need a full Python /
JavaScript / Java front end: the AST-walk checks of
`_check_python_specific` run after a *successful* parse, and the whole of
`_check_javascript_specific` / `_check_java_specific`. -/
structure RuleEnv where
  astChecks : List String → List PolicyViolation
  jsChecks : List String → List PolicyViolation
  javaChecks : List String → List PolicyViolation

/-- The inner loop of `_check_forbidden_patterns` for one configured
pattern: scan all lines (1-based) in order; every match is an
error-severity `forbidden_pattern` violation. -/
def violations_for_pattern (filePath : String) (pat : ForbiddenPattern)
    (lines : List String) : List PolicyViolation :=
  (List.enumFrom 1 lines).filterMap (fun pr =>
    if pat.regexMatch pr.2 then
      some { filePath := filePath, line := pr.1, rule := "forbidden_pattern",
             severity := "error",
             message := "Forbidden pattern \x27" ++ pat.regexSource ++ "\x27 found",
             codeSnippet := strip pr.2 }
    else none)

/-- Model of `_check_forbidden_patterns`: the patterns are iterated in configuration
order, each scanning all lines. -/
def check_forbidden_patterns (cfg : PolicyConfig) (filePath : String)
    (lines : List String) : List PolicyViolation :=
  cfg.forbiddenPatterns.flatMap (fun pat =>
    violations_for_pattern filePath pat lines)

/-- Model of `_check_python_specific`: parse; a `SyntaxError` is caught and converted
to a single `syntax_error` violation at the error's line; on success the
AST-walk rules (abstracted) run. -/
def check_python_specific (env : RuleEnv) (filePath : String)
    (lines : List String) : List PolicyViolation :=
  match pyParse lines with
  | .err n kind =>
    [{ filePath := filePath, line := n, rule := "syntax_error",
       severity := "error",
       message := "Python syntax error: " ++ renderPyErr kind,
       codeSnippet := "" }]
  | .ok => env.astChecks lines

/-- Worker for `findTestNamesL`, structurally recursive on a character
budget that starts at the line length. -/
def findTestNamesAux : Nat → List Char → List String
  | 0, _ => []
  | _ + 1, [] => []
  | fuel + 1, c :: cs =>
    if isPrefixL ("def test_").data (c :: cs) then
      let after := (c :: cs).drop 9
      let run := after.takeWhile isWordChar
      if run.isEmpty then findTestNamesAux fuel cs
      else ("test_" ++ String.mk run) :: findTestNamesAux fuel (after.drop run.length)
    else findTestNamesAux fuel cs

/-- Test-function names harvested by `re.findall(r'def (test_\w+)', content)`,
scanning one line: non-overlapping matches, resuming after each match. -/
def findTestNamesL (cs : List Char) : List String :=
  findTestNamesAux cs.length cs

/-- All `def test_…` names of the candidate, in scan order. -/
def findTestNames (lines : List String) : List String :=
  lines.flatMap (fun l => findTestNamesL l.data)

/-- Model of `re.search(r'(TODO|FIXME|XXX)', line, re.IGNORECASE)`. -/
def containsTodoMarker (l : String) : Bool :=
  containsSub (toLowerS l) "todo" ∨ containsSub (toLowerS l) "fixme"
    ∨ containsSub (toLowerS l) "xxx"

/-- Model of `_check_test_structure`: short test names (warning) followed by
TODO/FIXME markers (info). -/
def check_test_structure (filePath : String) (lines : List String) :
    List PolicyViolation :=
  (findTestNames lines).filterMap (fun name =>
    if name.length < 10 then
      some { filePath := filePath, line := 1, rule := "short_test_name",
             severity := "warning",
             message := "Test name \x27" ++ name ++ "\x27 should be more descriptive",
             codeSnippet := "" }
    else none)
  ++ (List.enumFrom 1 lines).filterMap (fun pr =>
    if containsTodoMarker pr.2 then
      some { filePath := filePath, line := pr.1, rule := "todo_comment",
             severity := "info",
             message := "Test contains TODO/FIXME comment",
             codeSnippet := strip pr.2 }
    else none)

/-- Length in characters of the joined content (`len(content)` where
`content = '\n'.join(lines)`). -/
def joinedLength (lines : List String) : Nat :=
  (lines.map String.length).sum + (lines.length - 1)

/-- Model of `pathlib.PurePath.suffix`. -/
def pathSuffix (p : String) : String :=
  let name := (p.data.reverse.takeWhile (fun c => c ≠ '/')).reverse
  let revName := name.reverse
  let ext := revName.takeWhile (fun c => c ≠ '.')
  if ext.length + 1 ≤ revName.length ∧ ¬ (revName.drop (ext.length + 1)).isEmpty
  then String.mk ('.' :: ext.reverse)
  else ""

/-- Body of `check_file` once `read_text` has succeeded: file-size check,
forbidden patterns, language-specific checks, test-structure checks, in
source order. -/
def check_file_content (cfg : PolicyConfig) (env : RuleEnv) (filePath : String)
    (lines : List String) : List PolicyViolation :=
  (if cfg.maxFileSize < joinedLength lines then
    [{ filePath := filePath, line := 1, rule := "file_size",
       severity := "warning",
       message := "File too large (" ++ toString (joinedLength lines)
         ++ " chars, max " ++ toString cfg.maxFileSize ++ ")",
       codeSnippet := "" }]
   else [])
  ++ check_forbidden_patterns cfg filePath lines
  ++ (if pathSuffix filePath = ".py" then check_python_specific env filePath lines
      else if pathSuffix filePath = ".js" ∨ pathSuffix filePath = ".ts" then
        env.jsChecks lines
      else if pathSuffix filePath = ".java" then env.javaChecks lines
      else [])
  ++ check_test_structure filePath lines

/-- Model of `TestPolicyChecker.check_file`.  Reading the file is the only fallible
step of the modelled fragment; a read failure is caught and converted to a
single error-severity `parse_error` violation. -/
def check_file (cfg : PolicyConfig) (env : RuleEnv) (filePath : String)
    (readResult : Except String (List String)) : List PolicyViolation :=
  match readResult with
  | .error msg =>
    [{ filePath := filePath, line := 1, rule := "parse_error",
       severity := "error",
       message := "Failed to parse file: " ++ msg,
       codeSnippet := "" }]
  | .ok lines => check_file_content cfg env filePath lines

/-! ## Repair Engine (`UniversalTestValidator`,
`src/llm_agent/universal_test_validator.py`) -/

/-- Environment of the validator: the availability sets from the context
bundle and a predicate modelling the filesystem existence test of
`_find_correct_module_path` (`(repo_root / pattern).py` or package
`__init__.py`), as a function of the dotted pattern. -/
structure ValidatorEnv where
  stdlibImports : List String
  localImports : List String
  externalImports : List String
  resolves : String → Bool

/-- The hard-coded `testing_imports` set of `_build_import_map`. -/
def testing_imports : List String :=
  ["pytest", "unittest", "mock", "patch", "Mock", "MagicMock",
   "requests", "json", "os", "sys", "pathlib", "datetime"]

/-- Model of `_build_import_map`: union of the context availability sets and the
testing imports (membership is all that is ever queried). -/
def availableImports (env : ValidatorEnv) : List String :=
  env.stdlibImports ++ env.localImports ++ env.externalImports ++ testing_imports

/-- Anchored literal: consume `lit` or fail. -/
def parseLit (lit cs : List Char) : Option (List Char) :=
  if isPrefixL lit cs then some (cs.drop lit.length) else none

/-- Anchored `\s+`: consume at least one whitespace character. -/
def parseWS1 (cs : List Char) : Option (List Char) :=
  let ws := cs.takeWhile isWSChar
  if ws.isEmpty then none else some (cs.drop ws.length)

/-- Anchored `(\w+)`: capture at least one word character. -/
def parseWord1 (cs : List Char) : Option (List Char × List Char) :=
  let w := cs.takeWhile isWordChar
  if w.isEmpty then none else some (w, cs.drop w.length)

/-- Model of `re.match(r'from\s+(\w+)\s+import\s+(.+)', line)`; since `\w`
and `\s` are disjoint and the trailing `.+` is greedy, the regex engine's
backtracking never changes the outcome and this deterministic parse is
equivalent. -/
def matchFromImport (cs : List Char) : Option (String × String) :=
  match parseLit "from".data cs with
  | none => none
  | some r1 =>
    match parseWS1 r1 with
    | none => none
    | some r2 =>
      match parseWord1 r2 with
      | none => none
      | some (module, r3) =>
        match parseWS1 r3 with
        | none => none
        | some r4 =>
          match parseLit "import".data r4 with
          | none => none
          | some r5 =>
            match parseWS1 r5 with
            | none => none
            | some rest =>
              if rest.isEmpty then none
              else some (String.mk module, String.mk rest)

/-- Model of `re.match(r'import\s+(\w+)(?:\s+as\s+\w+)?', line)` restricted
to its group 1 (the only part the caller reads). -/
def matchImportName (cs : List Char) : Option String :=
  match parseLit "import".data cs with
  | none => none
  | some r1 =>
    match parseWS1 r1 with
    | none => none
    | some r2 =>
      match parseWord1 r2 with
      | none => none
      | some (module, _) => some (String.mk module)

/-- Model of `_find_correct_module_path`: try the conventional source-layout prefixes
`src.`, `app.`, `code.` and the bare name against the filesystem, then fall
back to the context's local modules (first one that ends with or equals the
simple name). -/
def find_correct_module_path (env : ValidatorEnv) (module : String)
    (_targetFile : String) : Option String :=
  let patterns := ["src." ++ module, "app." ++ module, "code." ++ module, module]
  match patterns.find? (fun p => env.resolves p) with
  | some p => some p
  | none =>
    env.localImports.find? (fun lm => endsWithS lm module ∨ lm = module)

/-- Model of `_fix_single_import`: rewrite a `from X import …` whose module is not in
the availability set when a conventional path resolves; comment out an
unavailable aliased `import gradio/gr as …`; otherwise return the line
unchanged. -/
def fix_single_import (env : ValidatorEnv) (importLine : String)
    (targetFile : String) : String :=
  let fromBranch :=
    match matchFromImport importLine.data with
    | some (module, items) =>
      if ¬ (availableImports env).contains module then
        match find_correct_module_path env module targetFile with
        | some fixedModule => some ("from " ++ fixedModule ++ " import " ++ items)
        | none => none
      else none
    | none => none
  match fromBranch with
  | some res => res
  | none =>
    if startsWithS importLine "import " ∧ containsSub importLine " as " then
      match matchImportName importLine.data with
      | some module =>
        if ¬ (availableImports env).contains module
            ∧ (module = "gradio" ∨ module = "gr") then
          "# import gradio as gr  # Not available - mock if needed"
        else importLine
      | none => importLine
    else importLine

/-- The `common_undefined` table of `_find_undefined_names_in_line`. -/
def common_undefined : List (String × String) :=
  [("gr", "gradio"), ("pd", "pandas"), ("np", "numpy"), ("pytest", "pytest"),
   ("Mock", "unittest.mock"), ("patch", "unittest.mock"),
   ("MagicMock", "unittest.mock")]

/-- Model of `_find_undefined_names_in_line` (set iteration modelled as the table
order; the caller only feeds the result into a sorted set). -/
def find_undefined_names_in_line (line : String) : List String :=
  common_undefined.filterMap (fun pr =>
    if (containsSub line (pr.1 ++ ".") || containsSub line (pr.1 ++ "("))
        && ¬ (["def", "class", "if", "for", "while", "with", "try"].contains pr.1)
    then some pr.1 else none)

/-- Model of `_suggest_import_for_name`. -/
def suggest_import_for_name (name : String) : Option String :=
  List.lookup name
    [("gr", "import gradio as gr"), ("pd", "import pandas as pd"),
     ("np", "import numpy as np"), ("pytest", "import pytest"),
     ("Mock", "from unittest.mock import Mock"),
     ("patch", "from unittest.mock import patch"),
     ("MagicMock", "from unittest.mock import MagicMock")]

/-- Lexicographic comparison of character lists (model of Python string
ordering on the ASCII strings involved). -/
def charListLe : List Char → List Char → Bool
  | [], _ => true
  | _ :: _, [] => false
  | x :: xs, y :: ys => if x = y then charListLe xs ys else decide (x < y)

/-- Insertion into a sorted list. -/
def insertSorted (x : String) : List String → List String
  | [] => [x]
  | y :: ys => if charListLe x.data y.data then x :: y :: ys else y :: insertSorted x ys

/-- Model of Python `sorted` on strings. -/
def sortStrings (l : List String) : List String :=
  l.foldr insertSorted []

/-- Does a stripped line start an import statement
(`stripped.startswith(('import ', 'from '))`)? -/
def isImportStart (s : String) : Bool :=
  startsWithS s "import " ∨ startsWithS s "from "

/-- The insertion-point scan of `_fix_import_issues`: last index past a
prefix of import/comment/docstring lines, stopping at the first other
non-blank line. -/
def computeInsertIdxAux : List String → Nat → Nat → Nat
  | [], _, idx => idx
  | l :: ls, i, idx =>
    let s := strip l
    if startsWithS s "import " ∨ startsWithS s "from " ∨ startsWithS s "#"
        ∨ startsWithS s "\x22\x22\x22" ∨ startsWithS s "\x27\x27\x27" then
      computeInsertIdxAux ls (i + 1) (i + 1)
    else if ¬ s.isEmpty then idx
    else computeInsertIdxAux ls (i + 1) idx

/-- Insertion point for added imports. -/
def computeInsertIdx (lines : List String) : Nat :=
  computeInsertIdxAux lines 0 0

/-- Model of `_fix_import_issues` (Repair Engine pass 2): fix each import line in
place, collect import suggestions for well-known undefined names appearing
on other lines, and insert the (sorted, deduplicated) missing imports at the
computed position.  Returns the new lines and this pass's log entries. -/
def fix_import_issues (env : ValidatorEnv) (targetFile : String)
    (lines : List String) : List String × List String :=
  let fixedLines := lines.map (fun line =>
    let s := strip line
    if isImportStart s then replaceS line s (fix_single_import env s targetFile)
    else line)
  let importLog := lines.filterMap (fun line =>
    let s := strip line
    if isImportStart s ∧ fix_single_import env s targetFile ≠ s then
      some ("Fixed import: " ++ s ++ " → " ++ fix_single_import env s targetFile)
    else none)
  let importsToAdd := sortStrings
    ((lines.flatMap (fun line =>
      let s := strip line
      if isImportStart s then []
      else (find_undefined_names_in_line s).filterMap suggest_import_for_name)).dedup)
  let idx := computeInsertIdx fixedLines
  (fixedLines.take idx ++ importsToAdd ++ fixedLines.drop idx,
   importLog ++ importsToAdd.map (fun imp => "Added missing import: " ++ imp))

/-- Model of `_fix_undefined_variables` (pass 3): the per-line transform of the
source, including its quirk that the second fix, when applicable, restarts
from the original line. -/
def fix_undefined_variables (lines : List String) : List String × List String :=
  let step := fun (line : String) =>
    let base :=
      if containsSub line "text)" && containsSub line "chunk_text("
          && ¬ ((lines.take (lines.indexOf line)).any
                  (fun pl => containsSub pl "text = "))
      then replaceS line "chunk_text(text)" "chunk_text(\x22sample text for testing\x22)"
      else line
    if containsSub line "assert" && containsSub line "http://example.com"
    then replaceS line "== \x22http://example.com\x22" "!= None  # Check for any value"
    else base
  (lines.map step,
   lines.flatMap (fun line =>
     (if containsSub line "text)" && containsSub line "chunk_text("
          && ¬ ((lines.take (lines.indexOf line)).any
                  (fun pl => containsSub pl "text = "))
      then ["Fixed undefined \x27text\x27 variable"] else [])
     ++ (if containsSub line "assert" && containsSub line "http://example.com"
         then ["Fixed hardcoded assertion"] else [])))

/-- Model of `_fix_mock_issues` (pass 4): prepend the `patch` import when a patching
construct is used without it. -/
def fix_mock_issues (lines : List String) : List String × List String :=
  if lines.any (fun l => containsSub l "@patch(")
      ∨ lines.any (fun l => containsSub l "patch(") then
    if ¬ lines.any (fun l => containsSub l "from unittest.mock import patch") then
      ("from unittest.mock import patch" :: lines, ["Added missing patch import"])
    else (lines, [])
  else (lines, [])

/-- Model of `_fix_test_structure` (pass 5): wrap the whole body in a synthesized
test function when no `def test_…` line exists. -/
def fix_test_structure (lines : List String) : List String × List String :=
  if lines.any (fun l => startsWithS (strip l) "def test_") then (lines, [])
  else
    (["", "def test_generated_function():", "    # Generated test"]
      ++ lines.map (fun l => if ¬ (strip l).isEmpty then "    " ++ l else l)
      ++ [""],
     ["Wrapped code in test function"])

/-- Model of `_final_validation` (pass 6): re-parse, then the two content checks. -/
def final_validation (lines : List String) : Bool × List String :=
  match pyParse lines with
  | .err _ kind => (false, ["Syntax error: " ++ renderPyErr kind])
  | .ok =>
    let issues :=
      (if lines.any (fun l => containsSub (toLowerS l) "undefined") then
        ["Code contains \x27undefined\x27 references"] else [])
      ++ (if ¬ lines.any (fun l => startsWithS (strip l) "def test_") then
        ["No test functions found"] else [])
    (issues.isEmpty, issues)

/-- Rendering of a Python list of strings (`f"...{final_issues}"`), modelled
for issue strings without embedded quotes. -/
def pyListRepr (xs : List String) : String :=
  "[" ++ String.intercalate ", " (xs.map (fun s => "\x27" ++ s ++ "\x27")) ++ "]"

/-- Model of `validate_and_fix_test`: the complete repair pipeline, returning the
final text and the fix log in application order. -/
def validate_and_fix_test (env : ValidatorEnv) (testCode : List String)
    (targetFile : String) : List String × List String :=
  let r1 := fix_syntax_errors testCode
  let r2 := fix_import_issues env targetFile r1.1
  let r3 := fix_undefined_variables r2.1
  let r4 := fix_mock_issues r3.1
  let r5 := fix_test_structure r4.1
  let fv := final_validation r5.1
  (r5.1,
   r1.2 ++ r2.2 ++ r3.2 ++ r4.2 ++ r5.2
     ++ (if fv.1 then []
         else ["⚠️ Final validation found issues: " ++ pyListRepr fv.2]))

/-! ## Evaluation Harness (`TestEvaluationHarness`,
`src/tools/evaluation_harness_v2.py`) -/

/-- The `ValidationResult` dataclass (the spec's *CheckResult*).  Scores are
exact rationals; the wall-clock `execution_time` and the free-form `details`
dict carry no information any claim depends on and are omitted. -/
structure ValidationResult where
  checkName : String
  passed : Bool
  score : ℚ
  message : String
deriving DecidableEq, Repr

/-- Outcome of the single sandboxed `subprocess.run` invocation inside
`_check_execution` (environment input): normal completion with captured
stdout and return code, `subprocess.TimeoutExpired`, or some other
exception. -/
inductive ExecOutcome where
  | completed (stdout : String) (returncode : Int) : ExecOutcome
  | timedOut : ExecOutcome
  | raised (msg : String) : ExecOutcome
deriving DecidableEq, Repr

/-- Model of `_check_execution`: classify the sandboxed test run.  The runner is
invoked exactly once (the function consumes a single `ExecOutcome`) and
every branch returns a `ValidationResult` — the Python `try/except` makes
the function total. -/
def check_execution (sandboxTimeout : Nat) (stack : String) (suffix : String)
    (outcome : ExecOutcome) : ValidationResult :=
  if stack = "python" ∧ suffix = ".py" then
    match outcome with
    | .completed stdout rc =>
      if containsSub stdout "FAILED" ∨ rc ≠ 0 then
        { checkName := "execution_test", passed := false, score := 0,
          message := "Test execution failed" }
      else if containsSub stdout "passed" then
        { checkName := "execution_test", passed := true, score := 1,
          message := "Test execution successful" }
      else
        { checkName := "execution_test", passed := false, score := 1/2,
          message := "Execution completed but no tests found" }
    | .timedOut =>
      { checkName := "execution_test", passed := false, score := 0,
        message := "Test execution timed out after " ++ toString sandboxTimeout ++ "s" }
    | .raised msg =>
      { checkName := "execution_test", passed := false, score := 0,
        message := "Execution test failed: " ++ msg }
  else
    { checkName := "execution_test", passed := true, score := 7/10,
      message := "Execution test not available for " ++ stack }

/-- Model of `_check_policy_compliance`, applied to the violation list the policy
checker returned for the file: score `max(0, 1 − 0.2·errors − 0.1·warnings)`
and pass exactly when there are no error-severity violations. -/
def check_policy_compliance (violations : List PolicyViolation) :
    ValidationResult :=
  let errorCount : ℚ := violations.countP (fun v => v.severity = "error")
  let warningCount : ℚ := violations.countP (fun v => v.severity = "warning")
  { checkName := "policy_compliance",
    passed := violations.countP (fun v => v.severity = "error") = 0,
    score := max 0 (1 - errorCount * (1/5) - warningCount * (1/10)),
    message :=
      "Policy check: " ++ toString (violations.countP (fun v => v.severity = "error"))
        ++ " errors, " ++ toString (violations.countP (fun v => v.severity = "warning"))
        ++ " warnings"
        ++ (match violations with
            | [] => ""
            | v :: _ => " (first: " ++ v.message ++ ")") }

/-- The `scoring_weights` table of `TestEvaluationHarness.default_config`. -/
def default_scoring_weights : List (String × ℚ) :=
  [("syntax_validation", 3/10), ("policy_compliance", 1/4),
   ("import_validation", 3/20), ("execution_test", 1/5),
   ("performance_test", 1/20), ("coverage_analysis", 1/20)]

/-- Model of `dict.get(name, 0.05)` on the weight table. -/
def weightFor (weights : List (String × ℚ)) (name : String) : ℚ :=
  match weights with
  | [] => 1/20
  | (k, w) :: rest => if k = name then w else weightFor rest name

/-- Sum of weights over the produced results. -/
def totalWeightOf (weights : List (String × ℚ)) : List ValidationResult → ℚ
  | [] => 0
  | r :: rs => weightFor weights r.checkName + totalWeightOf weights rs

/-- Weighted sum of scores over the produced results. -/
def weightedScoreOf (weights : List (String × ℚ)) : List ValidationResult → ℚ
  | [] => 0
  | r :: rs => r.score * weightFor weights r.checkName + weightedScoreOf weights rs

/-- Model of `_calculate_overall_score`. -/
def calculate_overall_score (weights : List (String × ℚ))
    (results : List ValidationResult) : ℚ :=
  if 0 < totalWeightOf weights results then
    weightedScoreOf weights results / totalWeightOf weights results
  else 0

/-- The default `pass_threshold` (0.8). -/
def default_pass_threshold : ℚ := 4/5

/-- The threshold after `--strict` (`main` sets `pass_threshold` to 1.0). -/
def strict_pass_threshold : ℚ := 1

/-- Model of `overall_passed = overall_score >= pass_threshold`. -/
def overall_passed (threshold score : ℚ) : Bool :=
  threshold ≤ score

/-! ## Review Ledger (`HITLValidator`, `src/tools/hitl_validator_v2.py`) -/

/-- The `ReviewItem` dataclass (the `context` snapshot dict is opaque data the
ledger never reads or writes; it is omitted). -/
structure ReviewItem where
  filePath : String
  testType : String
  targetFunction : String
  generatedContent : String
  checklistItems : List String
  status : String
  reviewerNotes : String
  timestamp : String
deriving DecidableEq, Repr

/-- The persisted review artifact: the fields `approve_review`,
`reject_review` and `get_review_status` read or write.  The keys
`rejection_reason` and `reviewed_at` are absent until a rejection writes
them, modelled as `Option`. -/
structure ReviewArtifact where
  id : String
  createdAt : String
  status : String
  reviewItems : List ReviewItem
  reviewer : Option String
  approvedAt : Option String
  rejectionReason : Option String
  reviewedAt : Option String
deriving DecidableEq, Repr

/-- Model of `approve_review` on an artifact that exists and loads: the batch status
becomes "approved" unconditionally; a truthy `approved_items` list approves
exactly the items whose file path it names, while `None` or an empty list
approves every item. -/
def approve_review (a : ReviewArtifact) (reviewerName : String)
    (approvedItems : Option (List String)) (now : String) : ReviewArtifact :=
  { a with
    status := "approved",
    reviewer := some reviewerName,
    approvedAt := some now,
    reviewItems :=
      match approvedItems with
      | some l =>
        if l.isEmpty then
          a.reviewItems.map (fun it => { it with status := "approved" })
        else
          a.reviewItems.map (fun it =>
            if l.contains it.filePath then { it with status := "approved" } else it)
      | none => a.reviewItems.map (fun it => { it with status := "approved" }) }

/-- Model of `reject_review` on an artifact that exists and loads: the batch status
becomes "rejected", every item is rejected and the reason is propagated to
every item's notes. -/
def reject_review (a : ReviewArtifact) (reviewerName : String) (reason : String)
    (now : String) : ReviewArtifact :=
  { a with
    status := "rejected",
    reviewer := some reviewerName,
    rejectionReason := some reason,
    reviewedAt := some now,
    reviewItems := a.reviewItems.map (fun it =>
      { it with status := "rejected", reviewerNotes := reason }) }

/-- Summary returned by `get_review_status`. -/
structure ReviewStatusSummary where
  id : String
  status : String
  totalItems : Int
  approvedItems : Int
  rejectedItems : Int
  pendingItems : Int
  reviewer : Option String
  createdAt : String
deriving DecidableEq, Repr

/-- Model of `get_review_status` on an artifact that exists and loads. -/
def get_review_status (a : ReviewArtifact) : ReviewStatusSummary :=
  let total : Int := a.reviewItems.length
  let approved : Int := a.reviewItems.countP (fun it => it.status = "approved")
  let rejected : Int := a.reviewItems.countP (fun it => it.status = "rejected")
  { id := a.id, status := a.status, totalItems := total,
    approvedItems := approved, rejectedItems := rejected,
    pendingItems := total - approved - rejected,
    reviewer := a.reviewer, createdAt := a.createdAt }

/-- A reviewer action on the ledger (the two mutating entry points). -/
inductive ReviewOp where
  | approve (reviewerName : String) (approvedItems : Option (List String))
      (now : String) : ReviewOp
  | reject (reviewerName : String) (reason : String) (now : String) : ReviewOp

/-- Apply one reviewer action. -/
def applyReviewOp (op : ReviewOp) (a : ReviewArtifact) : ReviewArtifact :=
  match op with
  | .approve r items now => approve_review a r items now
  | .reject r reason now => reject_review a r reason now

/-! ## Concrete fixtures used in witnesses and counterexamples -/

/-- A freshly created pending review item. -/
def sample_item (path : String) : ReviewItem :=
  { filePath := path, testType := "unit", targetFunction := "f",
    generatedContent := "def test_f(): pass", checklistItems := [],
    status := "pending", reviewerNotes := "", timestamp := "t0" }

/-- A freshly created two-item review artifact. -/
def sample_artifact : ReviewArtifact :=
  { id := "review_1", createdAt := "t0", status := "pending_review",
    reviewItems := [sample_item "a.py", sample_item "b.py"],
    reviewer := none, approvedAt := none, rejectionReason := none,
    reviewedAt := none }

/-- The trivial rule environment (no AST-walk / JS / Java violations). -/
def emptyRuleEnv : RuleEnv := ⟨fun _ => [], fun _ => [], fun _ => []⟩

/-- A validator environment with empty availability sets and no resolvable
module paths. -/
def emptyValidatorEnv : ValidatorEnv := ⟨[], [], [], fun _ => false⟩

/-! ## C1 — batch-approval soundness of the Review Ledger -/

/-- C1, counterexample.  Approving only `"a.py"` of a two-item artifact
leaves `"b.py"`'s item pending, yet the batch-level status is already
"approved" (and `get_review_status` reports 1 of 2 items approved), so the
batch status is *not* "approved only if every contained item is approved". -/
theorem C1_counterexample :
    (approve_review sample_artifact "alice" (some ["a.py"]) "t1").status = "approved"
    ∧ ((approve_review sample_artifact "alice" (some ["a.py"]) "t1").reviewItems.map
        ReviewItem.status) = ["approved", "pending"]
    ∧ (get_review_status (approve_review sample_artifact "alice" (some ["a.py"]) "t1")).approvedItems = 1
    ∧ (get_review_status (approve_review sample_artifact "alice" (some ["a.py"]) "t1")).totalItems = 2 := by
  decide

/-- C1, amended.  `approve_review` on an existing artifact sets the
batch-level status to "approved" *unconditionally*: when `approved_items`
is `None` or empty every item also becomes "approved", but when it names a
(possibly strict) subset only the named items are approved and the rest
keep their previous status — so batch status "approved" does not imply
that every contained item's status is "approved". -/
theorem C1_amended_batch_status_unconditional (a : ReviewArtifact)
    (reviewer now : String) (items : Option (List String)) :
    (approve_review a reviewer items now).status = "approved"
    ∧ ((items = none ∨ items = some []) →
        ∀ it ∈ (approve_review a reviewer items now).reviewItems,
          it.status = "approved")
    ∧ (∀ l, items = some l → l.isEmpty = false →
        (approve_review a reviewer items now).reviewItems =
          a.reviewItems.map (fun it =>
            if l.contains it.filePath then { it with status := "approved" } else it)) := by
  refine ⟨rfl, ?_, ?_⟩
  · rintro (rfl | rfl) it hit <;>
      simp only [approve_review, List.isEmpty_nil, if_true, List.mem_map] at hit <;>
      obtain ⟨it0, -, rfl⟩ := hit <;> rfl
  · rintro l rfl hne
    simp only [approve_review, hne, Bool.false_eq_true, if_false]

/-- C1, witness for the amended theorem at a concrete artifact. -/
theorem C1_amended_witness :
    (approve_review sample_artifact "alice" none "t1").status = "approved"
    ∧ ∀ it ∈ (approve_review sample_artifact "alice" none "t1").reviewItems,
        it.status = "approved" := by
  have h := C1_amended_batch_status_unconditional sample_artifact "alice" "t1" none
  exact ⟨h.1, h.2.1 (Or.inl rfl)⟩

/-! ## C7 — the review state machine is claimed terminal -/

/-- C7, counterexample.  After `reject_review` the batch status is
"rejected" and every item is rejected, but a subsequent `approve_review`
transitions the batch status (and every item) back to "approved" —
"approved"/"rejected" are not terminal. -/
theorem C7_counterexample :
    (reject_review sample_artifact "bob" "flaky" "t1").status = "rejected"
    ∧ ((reject_review sample_artifact "bob" "flaky" "t1").reviewItems.map
        ReviewItem.status) = ["rejected", "rejected"]
    ∧ (approve_review (reject_review sample_artifact "bob" "flaky" "t1")
        "carol" none "t2").status = "approved"
    ∧ ((approve_review (reject_review sample_artifact "bob" "flaky" "t1")
        "carol" none "t2").reviewItems.map ReviewItem.status)
        = ["approved", "approved"] := by
  decide

/-- C7, amended.  Every reviewer action overwrites the batch status (approve
always sets "approved", reject always sets "rejected", regardless of the
previous status), and an item's status after an action is either its old
status or one of "approved"/"rejected" — so statuses never return to
"pending", but the resolved statuses are not terminal. -/
theorem C7_amended_statuses_overwritten (a : ReviewArtifact) (op : ReviewOp) :
    ((applyReviewOp op a).status = "approved" ∨ (applyReviewOp op a).status = "rejected")
    ∧ (applyReviewOp op a).reviewItems.length = a.reviewItems.length
    ∧ (∀ i (h1 : i < (applyReviewOp op a).reviewItems.length)
        (h2 : i < a.reviewItems.length),
        ((applyReviewOp op a).reviewItems.get ⟨i, h1⟩).status
            = (a.reviewItems.get ⟨i, h2⟩).status
        ∨ ((applyReviewOp op a).reviewItems.get ⟨i, h1⟩).status = "approved"
        ∨ ((applyReviewOp op a).reviewItems.get ⟨i, h1⟩).status = "rejected") := by
  rcases op with ⟨r, items, now⟩ | ⟨r, reason, now⟩
  · refine ⟨Or.inl rfl, ?_, ?_⟩
    · rcases items with _ | l
      · simp [applyReviewOp, approve_review]
      · by_cases hl : l.isEmpty <;> simp [applyReviewOp, approve_review, hl]
    · intro i h1 h2
      rcases items with _ | l
      · right; left
        simp [applyReviewOp, approve_review, List.get_eq_getElem, List.getElem_map]
      · by_cases hl : l.isEmpty
        · right; left
          simp [applyReviewOp, approve_review, hl, List.get_eq_getElem, List.getElem_map]
        · simp only [applyReviewOp, approve_review, hl, Bool.false_eq_true, if_false,
            List.get_eq_getElem, List.getElem_map]
          by_cases hc : l.contains (a.reviewItems.get ⟨i, h2⟩).filePath
          · right; left
            simp [List.get_eq_getElem] at hc
            simp [hc]
          · left
            simp [List.get_eq_getElem] at hc
            simp [hc]
  · refine ⟨Or.inr rfl, ?_, ?_⟩
    · simp [applyReviewOp, reject_review]
    · intro i h1 h2
      right; right
      simp [applyReviewOp, reject_review, List.get_eq_getElem, List.getElem_map]

/-- C7, witness for the amended theorem: a rejection followed by inspection
of the first item. -/
theorem C7_amended_witness :
    ((applyReviewOp (.reject "bob" "flaky" "t1") sample_artifact).status = "approved"
      ∨ (applyReviewOp (.reject "bob" "flaky" "t1") sample_artifact).status = "rejected")
    ∧ (((applyReviewOp (.reject "bob" "flaky" "t1") sample_artifact).reviewItems.get
          ⟨0, by decide⟩).status = (sample_artifact.reviewItems.get ⟨0, by decide⟩).status
        ∨ ((applyReviewOp (.reject "bob" "flaky" "t1") sample_artifact).reviewItems.get
          ⟨0, by decide⟩).status = "approved"
        ∨ ((applyReviewOp (.reject "bob" "flaky" "t1") sample_artifact).reviewItems.get
          ⟨0, by decide⟩).status = "rejected") := by
  have h := C7_amended_statuses_overwritten sample_artifact (.reject "bob" "flaky" "t1")
  exact ⟨h.1, h.2.2 0 (by decide) (by decide)⟩

/-! ## C3 — classification of the sandboxed execution check -/

/-- Reduction of the execution check on the Python branch, completed run. -/
theorem check_execution_completed (t : Nat) (out : String) (rc : Int) :
    check_execution t "python" ".py" (.completed out rc) =
      (if containsSub out "FAILED" ∨ rc ≠ 0 then
        { checkName := "execution_test", passed := false, score := 0,
          message := "Test execution failed" }
      else if containsSub out "passed" then
        { checkName := "execution_test", passed := true, score := 1,
          message := "Test execution successful" }
      else
        { checkName := "execution_test", passed := false, score := 1/2,
          message := "Execution completed but no tests found" }) := rfl

/-- Reduction of the execution check on the Python branch, timeout. -/
theorem check_execution_timedOut (t : Nat) :
    check_execution t "python" ".py" .timedOut =
      { checkName := "execution_test", passed := false, score := 0,
        message := "Test execution timed out after " ++ toString t ++ "s" } := rfl

/-- Reduction of the execution check on the Python branch, other
exception. -/
theorem check_execution_raised (t : Nat) (msg : String) :
    check_execution t "python" ".py" (.raised msg) =
      { checkName := "execution_test", passed := false, score := 0,
        message := "Execution test failed: " ++ msg } := rfl

/-- C3.  On a Python test file the execution check is total over the three
possible runner outcomes and classifies them exactly as specified: a failed
run (FAILED marker or nonzero return code) scores 0.0, a passing run scores
1.0, a clean run with no tests discovered scores 0.5, and a sandbox timeout
is a hard failure with score 0.0 and a timeout message; in every case the
single runner invocation is never retried and a `ValidationResult` is
returned (the final disjunction lists the only possible scores apart from
the non-Python fallback, which the hypotheses exclude). -/
theorem C3_execution_classification (t : Nat) (o : ExecOutcome) :
    (o = .timedOut →
      (check_execution t "python" ".py" o).passed = false
      ∧ (check_execution t "python" ".py" o).score = 0
      ∧ (check_execution t "python" ".py" o).message
          = "Test execution timed out after " ++ toString t ++ "s")
    ∧ (∀ out rc, o = .completed out rc →
        (containsSub out "FAILED" = true ∨ rc ≠ 0) →
        (check_execution t "python" ".py" o).passed = false
        ∧ (check_execution t "python" ".py" o).score = 0)
    ∧ (∀ out rc, o = .completed out rc →
        containsSub out "FAILED" = false → rc = 0 →
        containsSub out "passed" = true →
        (check_execution t "python" ".py" o).passed = true
        ∧ (check_execution t "python" ".py" o).score = 1)
    ∧ (∀ out rc, o = .completed out rc →
        containsSub out "FAILED" = false → rc = 0 →
        containsSub out "passed" = false →
        (check_execution t "python" ".py" o).passed = false
        ∧ (check_execution t "python" ".py" o).score = 1/2)
    ∧ (∀ msg, o = .raised msg →
        (check_execution t "python" ".py" o).passed = false
        ∧ (check_execution t "python" ".py" o).score = 0)
    ∧ ((check_execution t "python" ".py" o).score = 0
        ∨ (check_execution t "python" ".py" o).score = 1/2
        ∨ (check_execution t "python" ".py" o).score = 1) := by
  refine ⟨?_, ?_, ?_, ?_, ?_, ?_⟩
  · rintro rfl
    rw [check_execution_timedOut]
    exact ⟨rfl, rfl, rfl⟩
  · rintro out rc rfl hfail
    rw [check_execution_completed, if_pos hfail]
    exact ⟨rfl, rfl⟩
  · rintro out rc rfl hF hrc hp
    have hneg : ¬ (containsSub out "FAILED" = true ∨ rc ≠ 0) := by
      rintro (h | h)
      · rw [hF] at h; exact Bool.false_ne_true h
      · exact h hrc
    rw [check_execution_completed, if_neg hneg, if_pos hp]
    exact ⟨rfl, rfl⟩
  · rintro out rc rfl hF hrc hp
    have hneg : ¬ (containsSub out "FAILED" = true ∨ rc ≠ 0) := by
      rintro (h | h)
      · rw [hF] at h; exact Bool.false_ne_true h
      · exact h hrc
    have hnp : ¬ containsSub out "passed" = true := by
      rw [hp]; exact Bool.false_ne_true
    rw [check_execution_completed, if_neg hneg, if_neg hnp]
    exact ⟨rfl, rfl⟩
  · rintro msg rfl
    rw [check_execution_raised]
    exact ⟨rfl, rfl⟩
  · rcases o with ⟨out, rc⟩ | _ | msg
    · rw [check_execution_completed]
      by_cases hfail : containsSub out "FAILED" = true ∨ rc ≠ 0
      · left; rw [if_pos hfail]
      · rw [if_neg hfail]
        by_cases hp : containsSub out "passed" = true
        · right; right; rw [if_pos hp]
        · right; left; rw [if_neg hp]
    · left; rw [check_execution_timedOut]
    · left; rw [check_execution_raised]

/-- C3, witness: the timeout outcome at the default 30-second sandbox
timeout. -/
theorem C3_witness :
    (check_execution 30 "python" ".py" .timedOut).passed = false
    ∧ (check_execution 30 "python" ".py" .timedOut).score = 0
    ∧ (check_execution 30 "python" ".py" .timedOut).message
        = "Test execution timed out after 30s" := by
  have h := C3_execution_classification 30 .timedOut
  exact h.1 rfl

/-! ## C5 — policy-compliance score formula -/

/-- C5.  For every file (whatever the read outcome and however the
abstracted rule parts behave), the policy-compliance check's score is
exactly `max(0, 1 − 0.2·E − 0.1·W)` over the error and warning counts of
the Rule Engine's violation list, its `passed` flag holds iff `E = 0`, and
prepending any violation of non-error severity never changes the flag
(warnings and info never block the gate). -/
theorem C5_policy_score_formula (cfg : PolicyConfig) (env : RuleEnv)
    (fp : String) (readResult : Except String (List String)) :
    (check_policy_compliance (check_file cfg env fp readResult)).score
      = max 0 (1
          - ((check_file cfg env fp readResult).countP
              (fun v => v.severity = "error") : ℚ) * (1/5)
          - ((check_file cfg env fp readResult).countP
              (fun v => v.severity = "warning") : ℚ) * (1/10))
    ∧ ((check_policy_compliance (check_file cfg env fp readResult)).passed = true
        ↔ (check_file cfg env fp readResult).countP
            (fun v => v.severity = "error") = 0)
    ∧ (∀ v : PolicyViolation, v.severity ≠ "error" →
        (check_policy_compliance (v :: check_file cfg env fp readResult)).passed
          = (check_policy_compliance (check_file cfg env fp readResult)).passed) := by
  refine ⟨rfl, ?_, ?_⟩
  · simp [check_policy_compliance]
  · intro v hv
    simp [check_policy_compliance, List.countP_cons, hv]

/-- An info-severity violation used to exercise the non-blocking clause. -/
def sample_info_violation : PolicyViolation :=
  { filePath := "t.py", line := 3, rule := "todo_comment", severity := "info",
    message := "Test contains TODO/FIXME comment", codeSnippet := "# TODO" }

/-- C5, witness: a file whose read fails (one `parse_error` error violation)
— score 0.8, gate blocked, and an added info violation leaves the flag
unchanged. -/
theorem C5_witness :
    ((check_policy_compliance
        (check_file policy_default_config emptyRuleEnv "t.py" (.error "boom"))).passed = true
      ↔ (check_file policy_default_config emptyRuleEnv "t.py" (.error "boom")).countP
          (fun v => v.severity = "error") = 0)
    ∧ (check_policy_compliance
        (sample_info_violation
          :: check_file policy_default_config emptyRuleEnv "t.py" (.error "boom"))).passed
      = (check_policy_compliance
          (check_file policy_default_config emptyRuleEnv "t.py" (.error "boom"))).passed := by
  have h := C5_policy_score_formula policy_default_config emptyRuleEnv "t.py" (.error "boom")
  exact ⟨h.2.1, h.2.2 sample_info_violation (by decide)⟩

/-! ## C6 — weighted overall score -/

/-- The weight table and result list of the C6 counterexample: a supplied
configuration with a negative weight. -/
def c6_weights : List (String × ℚ) := [("a", 2), ("b", -1)]

/-- Two producible check results (scores 0 and 1). -/
def c6_results : List ValidationResult :=
  [{ checkName := "a", passed := false, score := 0, message := "" },
   { checkName := "b", passed := true, score := 1, message := "" }]

/-- C6, counterexample.  With a supplied weight table containing a negative
weight, the overall score of two check results whose scores lie in [0,1] is
−1, outside [0,1] — the boundedness is *not* independent of the weights
supplied. -/
theorem C6_counterexample :
    calculate_overall_score c6_weights c6_results = -1
    ∧ calculate_overall_score c6_weights c6_results < 0 := by
  have hab : ("a" : String) ≠ "b" := by decide
  have h1 : weightFor c6_weights "a" = 2 := by simp [weightFor, c6_weights]
  have h2 : weightFor c6_weights "b" = -1 := by simp [weightFor, c6_weights, hab]
  have h : calculate_overall_score c6_weights c6_results = -1 := by
    simp only [calculate_overall_score, totalWeightOf, weightedScoreOf, c6_results, h1, h2]
    norm_num
  exact ⟨h, by rw [h]; norm_num⟩

/-- Effective weights are nonnegative when the table's entries are. -/
theorem weightFor_nonneg (weights : List (String × ℚ)) (name : String)
    (h : ∀ p ∈ weights, 0 ≤ p.2) : 0 ≤ weightFor weights name := by
  induction weights with
  | nil => norm_num [weightFor]
  | cons p rest ih =>
    obtain ⟨k, w⟩ := p
    by_cases hk : k = name
    · simpa [weightFor, hk] using h (k, w) (List.mem_cons_self _ _)
    · simpa [weightFor, hk] using ih (fun q hq => h q (List.mem_cons_of_mem _ hq))

/-- The weight total is nonnegative when the table's entries are. -/
theorem totalWeightOf_nonneg (weights : List (String × ℚ))
    (results : List ValidationResult) (h : ∀ p ∈ weights, 0 ≤ p.2) :
    0 ≤ totalWeightOf weights results := by
  induction results with
  | nil => simp [totalWeightOf]
  | cons r rs ih =>
    simp only [totalWeightOf]
    have := weightFor_nonneg weights r.checkName h
    linarith

/-- The weighted score is nonnegative when weights and scores are. -/
theorem weightedScoreOf_nonneg (weights : List (String × ℚ))
    (results : List ValidationResult) (hW : ∀ p ∈ weights, 0 ≤ p.2)
    (hS : ∀ r ∈ results, 0 ≤ r.score) :
    0 ≤ weightedScoreOf weights results := by
  induction results with
  | nil => simp [weightedScoreOf]
  | cons r rs ih =>
    simp only [weightedScoreOf]
    have h1 := weightFor_nonneg weights r.checkName hW
    have h2 := hS r (List.mem_cons_self _ _)
    have h3 := ih (fun q hq => hS q (List.mem_cons_of_mem _ hq))
    have h4 : 0 ≤ r.score * weightFor weights r.checkName := mul_nonneg h2 h1
    linarith

/-- The weighted score is bounded by the weight total when every score is
at most 1. -/
theorem weightedScoreOf_le_totalWeightOf (weights : List (String × ℚ))
    (results : List ValidationResult) (hW : ∀ p ∈ weights, 0 ≤ p.2)
    (hS : ∀ r ∈ results, 0 ≤ r.score ∧ r.score ≤ 1) :
    weightedScoreOf weights results ≤ totalWeightOf weights results := by
  induction results with
  | nil => simp [weightedScoreOf, totalWeightOf]
  | cons r rs ih =>
    simp only [weightedScoreOf, totalWeightOf]
    have h1 := weightFor_nonneg weights r.checkName hW
    have h2 := hS r (List.mem_cons_self _ _)
    have h3 := ih (fun q hq => hS q (List.mem_cons_of_mem _ hq))
    have h4 : r.score * weightFor weights r.checkName ≤ weightFor weights r.checkName :=
      mul_le_of_le_one_left h1 h2.2
    linarith

/-- C6, amended.  The claimed formula, default weight, empty-batch zero and
thresholds all hold, and the overall score lies in [0,1] *provided every
supplied weight is nonnegative* (true of the default table); the
counterexample shows a negative supplied weight breaks the bound. -/
theorem C6_amended_weighted_score (weights : List (String × ℚ))
    (results : List ValidationResult)
    (hW : ∀ p ∈ weights, 0 ≤ p.2)
    (hS : ∀ r ∈ results, 0 ≤ r.score ∧ r.score ≤ 1) :
    (0 ≤ calculate_overall_score weights results
      ∧ calculate_overall_score weights results ≤ 1)
    ∧ calculate_overall_score weights [] = 0
    ∧ (∀ name, (∀ p ∈ weights, p.1 ≠ name) → weightFor weights name = 1/20)
    ∧ (∀ thr s : ℚ, overall_passed thr s = true ↔ thr ≤ s)
    ∧ default_pass_threshold = 4/5 ∧ strict_pass_threshold = 1 := by
  refine ⟨?_, ?_, ?_, ?_, rfl, rfl⟩
  · by_cases h0 : 0 < totalWeightOf weights results
    · rw [calculate_overall_score, if_pos h0]
      constructor
      · exact div_nonneg
          (weightedScoreOf_nonneg weights results hW (fun r hr => (hS r hr).1))
          (le_of_lt h0)
      · rw [div_le_one h0]
        exact weightedScoreOf_le_totalWeightOf weights results hW hS
    · rw [calculate_overall_score, if_neg h0]
      norm_num
  · simp [calculate_overall_score, totalWeightOf]
  · intro name hname
    induction weights with
    | nil => rfl
    | cons p rest ih =>
      obtain ⟨k, w⟩ := p
      have hk : k ≠ name := hname (k, w) (List.mem_cons_self _ _)
      simp only [weightFor, hk, if_false]
      exact ih (fun q hq => hW q (List.mem_cons_of_mem _ hq))
        (fun q hq => hname q (List.mem_cons_of_mem _ hq))
  · intro thr s
    simp [overall_passed]

/-- C6, witness: the default weight table (all nonnegative) and a single
full-score syntax check. -/
theorem C6_amended_witness :
    (0 ≤ calculate_overall_score default_scoring_weights
          [{ checkName := "syntax_validation", passed := true, score := 1, message := "" }]
      ∧ calculate_overall_score default_scoring_weights
          [{ checkName := "syntax_validation", passed := true, score := 1, message := "" }] ≤ 1)
    ∧ weightFor default_scoring_weights "custom_check" = 1/20 := by
  have h := C6_amended_weighted_score default_scoring_weights
    [{ checkName := "syntax_validation", passed := true, score := 1, message := "" }]
    (by norm_num [default_scoring_weights]) (by norm_num)
  refine ⟨h.1, h.2.2.1 "custom_check" ?_⟩
  intro p hp
  fin_cases hp <;> decide

/-! ## C4 — unparseable source and the Rule Engine -/

/-- C4, counterexample.  On the unparseable source `"x = 1\n    y = 2"`
(a genuine `IndentationError: unexpected indent` at line 2), `check_file`
returns exactly one error Violation — but its rule is `"syntax_error"`, not
`"parse_error"`; no `parse_error` violation is produced. -/
theorem C4_counterexample :
    ((check_file policy_default_config emptyRuleEnv "test.py"
        (.ok ["x = 1", "    y = 2"])).map (fun v => (v.rule, v.severity, v.line)))
      = [("syntax_error", "error", 2)]
    ∧ ∀ v ∈ check_file policy_default_config emptyRuleEnv "test.py"
        (.ok ["x = 1", "    y = 2"]), v.rule ≠ "parse_error" := by
  decide

/-- C4, amended.  For every `.py` file whose content reads successfully but
fails to parse, `check_file` returns (without raising — the model is total)
a list *containing* an error Violation of rule `"syntax_error"` at the
error's line (the text rules still run, so the list need not be a
singleton); the rule `"parse_error"` is produced exactly when reading the
file raises, and then it is the only violation. -/
theorem C4_amended_syntax_error_rule (cfg : PolicyConfig) (env : RuleEnv)
    (fp : String) (lines : List String) (n : Nat) (k : PyErrKind)
    (hsuf : pathSuffix fp = ".py") (hparse : pyParse lines = .err n k) :
    (∃ v ∈ check_file cfg env fp (.ok lines),
      v.rule = "syntax_error" ∧ v.severity = "error" ∧ v.line = n)
    ∧ (∀ msg, ∃ w, check_file cfg env fp (.error msg) = [w]
        ∧ w.rule = "parse_error" ∧ w.severity = "error") := by
  constructor
  · refine ⟨PolicyViolation.mk fp n "syntax_error" "error"
      ("Python syntax error: " ++ renderPyErr k) "", ?_, rfl, rfl, rfl⟩
    simp [check_file, check_file_content, hsuf, check_python_specific, hparse,
      List.mem_append]
  · intro msg
    exact ⟨PolicyViolation.mk fp 1 "parse_error" "error"
      ("Failed to parse file: " ++ msg) "", rfl, rfl, rfl⟩

/-- C4, witness for the amended theorem at the concrete unparseable file. -/
theorem C4_amended_witness :
    ∃ v ∈ check_file policy_default_config emptyRuleEnv "test.py"
        (.ok ["x = 1", "    y = 2"]),
      v.rule = "syntax_error" ∧ v.severity = "error" ∧ v.line = 2 :=
  (C4_amended_syntax_error_rule policy_default_config emptyRuleEnv "test.py"
    ["x = 1", "    y = 2"] 2 .unexpectedIndentK (by decide) (by decide)).1

/-! ## C9 — violation ordering within a rule -/

/-- C9, counterexample.  With line 1 matching the late pattern
`assert True\b` and line 2 matching the early pattern `time\.sleep\(`, the
two returned `forbidden_pattern` violations appear as line 2 before line 1:
order within the rule is by *pattern index first*, so source line order is
not preserved across patterns of the same rule. -/
theorem C9_counterexample :
    ((check_forbidden_patterns policy_default_config "t.py"
        ["assert True", "time.sleep(1)"]).map (fun v => (v.rule, v.line)))
      = [("forbidden_pattern", 2), ("forbidden_pattern", 1)]
    ∧ ¬ ((2 : Nat) ≤ 1) := by
  exact ⟨by decide, by decide⟩

/-- 1-based enumeration has strictly increasing indices. -/
theorem enumFrom_pairwise_fst_lt {α : Type} (n : Nat) (l : List α) :
    (List.enumFrom n l).Pairwise (fun a b => a.1 < b.1) := by
  induction l generalizing n with
  | nil => simp
  | cons x xs ih =>
    simp only [List.enumFrom]
    refine List.Pairwise.cons (fun b hb => ?_) (ih (n + 1))
    obtain ⟨i, y⟩ := b
    rw [List.mk_mem_enumFrom_iff_le_and_getElem?_sub] at hb
    exact Nat.lt_of_lt_of_le (Nat.lt_succ_self n) hb.1

/-- C9, amended.  Within a *single* forbidden pattern the produced
violations do preserve source line order (the scan enumerates lines in
ascending order); the full `forbidden_pattern` list is the concatenation of
the per-pattern scans in configuration order, which is where the
counterexample's inversion comes from. -/
theorem C9_amended_per_pattern_line_order (fp : String) (pat : ForbiddenPattern)
    (lines : List String) :
    (violations_for_pattern fp pat lines).Pairwise (fun v1 v2 => v1.line ≤ v2.line)
    ∧ ∀ cfg : PolicyConfig, check_forbidden_patterns cfg fp lines
        = cfg.forbiddenPatterns.flatMap (fun p => violations_for_pattern fp p lines) := by
  constructor
  · refine List.Pairwise.filterMap _ ?_ (enumFrom_pairwise_fst_lt 1 lines)
    intro a a2 hlt b hb b2 hb2
    have hbl : b.line = a.1 := by
      by_cases hm : pat.regexMatch a.2
      · simp only [hm, if_true, Option.mem_def, Option.some_inj] at hb
        rw [← hb]
      · simp [hm] at hb
    have hbl2 : b2.line = a2.1 := by
      by_cases hm : pat.regexMatch a2.2
      · simp only [hm, if_true, Option.mem_def, Option.some_inj] at hb2
        rw [← hb2]
      · simp [hm] at hb2
    rw [hbl, hbl2]
    exact Nat.le_of_lt hlt
  · intro cfg
    rfl

/-! ## C8 — unresolvable imports in the Repair Engine -/

/-- A successful `from … import` match means the line begins with "from". -/
theorem matchFromImport_starts_with_from (cs : List Char) (p : String × String)
    (h : matchFromImport cs = some p) : isPrefixL "from".data cs = true := by
  by_cases hp : isPrefixL "from".data cs = true
  · exact hp
  · exfalso
    rw [matchFromImport, parseLit, if_neg hp] at h
    exact Option.noConfusion h

/-- A line matching `from\s+…` does not start with "import ". -/
theorem matchFromImport_not_import_start (s : String) (p : String × String)
    (h : matchFromImport s.data = some p) : startsWithS s "import " = false := by
  have hf := matchFromImport_starts_with_from s.data p h
  have hd : "from".data = ['f', 'r', 'o', 'm'] := rfl
  have hi : "import ".data = ['i', 'm', 'p', 'o', 'r', 't', ' '] := rfl
  rw [startsWithS, hi]
  rw [hd] at hf
  cases hs : s.data with
  | nil => rw [hs] at hf; exact absurd hf (by simp [isPrefixL])
  | cons c cs =>
    rw [hs] at hf
    simp only [isPrefixL, Bool.and_eq_true, beq_iff_eq] at hf
    obtain ⟨rfl, -⟩ := hf
    simp [isPrefixL]

/-- A line starting with "import " cannot match the `from …` regex. -/
theorem import_start_no_from (s : String)
    (h : startsWithS s "import " = true) : matchFromImport s.data = none := by
  have hi : "import ".data = ['i', 'm', 'p', 'o', 'r', 't', ' '] := rfl
  rw [startsWithS, hi] at h
  have hfrom : isPrefixL "from".data s.data = false := by
    have hd : "from".data = ['f', 'r', 'o', 'm'] := rfl
    rw [hd]
    cases hs : s.data with
    | nil => rw [hs] at h; exact absurd h (by simp [isPrefixL])
    | cons c cs =>
      rw [hs] at h
      simp only [isPrefixL, Bool.and_eq_true, beq_iff_eq] at h
      obtain ⟨rfl, -⟩ := h
      simp [isPrefixL]
  rw [matchFromImport, parseLit, if_neg (by simp [hfrom])]

/-- C8, counterexample.  With empty availability sets and no resolvable
source-layout prefix, the unresolvable import `from config import helper`
is returned by the import-resolution pass *unchanged* — it is neither
rewritten nor commented out (its stripped form does not start with `#`). -/
theorem C8_counterexample :
    fix_import_issues emptyValidatorEnv "" ["from config import helper"]
      = (["from config import helper"], [])
    ∧ (availableImports emptyValidatorEnv).contains "config" = false
    ∧ find_correct_module_path emptyValidatorEnv "config" "" = none
    ∧ startsWithS (strip "from config import helper") "#" = false := by
  decide

/-- C8, amended.  No import is ever deleted (the pass maps lines one-to-one
and only ever *adds* lines), but the only import that is commented out is
an aliased `import gradio/gr as …` whose module is unavailable; a
`from X import …` statement whose module is unavailable and remains
unresolvable after the conventional prefixes and the local-module list is
returned unchanged, not commented out. -/
theorem C8_amended_unresolvable_import_unchanged (env : ValidatorEnv)
    (tgt : String) :
    (∀ s m items, matchFromImport s.data = some (m, items) →
      (availableImports env).contains m = false →
      find_correct_module_path env m tgt = none →
      fix_single_import env s tgt = s)
    ∧ (∀ s m, startsWithS s "import " = true → containsSub s " as " = true →
        matchImportName s.data = some m →
        (availableImports env).contains m = false →
        (m = "gradio" ∨ m = "gr") →
        fix_single_import env s tgt
          = "# import gradio as gr  # Not available - mock if needed")
    ∧ (∀ lines : List String,
        lines.length ≤ (fix_import_issues env tgt lines).1.length) := by
  refine ⟨?_, ?_, ?_⟩
  · intro s m items hm havail hfind
    have hni := matchFromImport_not_import_start s (m, items) hm
    rw [fix_single_import]
    rw [hm]
    simp only [havail, Bool.false_eq_true, not_false_iff, if_true, hfind]
    rw [if_neg]
    rintro ⟨hc, -⟩
    rw [hni] at hc
    exact Bool.false_ne_true hc
  · intro s m hstart has hm havail hgr
    have hnf := import_start_no_from s hstart
    simp only [fix_single_import, hnf, hm]
    rw [if_pos ⟨hstart, has⟩]
    rw [if_pos ⟨by simpa using havail, hgr⟩]
  · intro lines
    rw [fix_import_issues]
    simp only [List.length_append, List.length_take, List.length_drop,
      List.length_map]
    omega

/-- C8, witness: the amended theorem at the counterexample's line and the
empty environment. -/
theorem C8_amended_witness :
    fix_single_import emptyValidatorEnv "from config import helper" ""
      = "from config import helper"
    ∧ fix_single_import emptyValidatorEnv "import gradio as gr" ""
      = "# import gradio as gr  # Not available - mock if needed"
    ∧ ([""] : List String).length
        ≤ (fix_import_issues emptyValidatorEnv "" [""]).1.length := by
  have h := C8_amended_unresolvable_import_unchanged emptyValidatorEnv ""
  refine ⟨h.1 "from config import helper" "config" "helper" (by decide)
      (by decide) (by decide),
    h.2.1 "import gradio as gr" "gradio" (by decide) (by decide) (by decide)
      (by decide) (Or.inl rfl),
    h.2.2 [""]⟩

/-! ## C2 — the repair pipeline's parseability guarantee -/

set_option maxRecDepth 8000 in
/-- C2, counterexample.  The candidate
`"def test_x():\n    import gradio as gr"` parses, but the pipeline's
import-resolution pass comments out its only body statement, leaving a
function with an empty body — the *returned* text does not parse (and the
engine returns it anyway, logging a final-validation issue instead of
raising). -/
theorem C2_counterexample :
    pyParseOk ["def test_x():", "    import gradio as gr"] = true
    ∧ pyParseOk (validate_and_fix_test emptyValidatorEnv
        ["def test_x():", "    import gradio as gr"] "").1 = false := by
  decide

/-- Pass 1 substitutes the placeholder exactly when the candidate fails to
parse even after the retry. -/
theorem fix_syntax_errors_fallback (T : List String) (n : Nat) (k : PyErrKind)
    (h1 : pyParse T = .err n k)
    (h2 : pyParse (syntax_retry_code T k) ≠ .ok) :
    (fix_syntax_errors T).1 = create_minimal_test (syntax_retry_code T k) := by
  cases hr : pyParse (syntax_retry_code T k) with
  | ok => exact absurd hr h2
  | err m k2 => simp only [fix_syntax_errors, h1, hr]

/-- C2, amended.  `validate_and_fix_test` is total (never raises) and pass 1
guarantees parseability *at its own exit*: a parseable candidate passes
through pass 1 unchanged, and a candidate that is unparseable even after
the indentation-normalization retry is replaced by the minimal placeholder
test.  The final returned text, however, need not parse (see the
counterexample): when it does not, the fix log ends with a
final-validation issue entry instead of an exception being raised. -/
theorem C2_amended_pass1_guarantee (T : List String) :
    (pyParse T = .ok → fix_syntax_errors T = (T, []))
    ∧ (∀ n k, pyParse T = .err n k →
        pyParse (syntax_retry_code T k) ≠ .ok →
        (fix_syntax_errors T).1 = create_minimal_test (syntax_retry_code T k))
    ∧ (∀ env tgt,
        (final_validation (validate_and_fix_test env T tgt).1).1 = false →
        ∃ pre, (validate_and_fix_test env T tgt).2
          = pre ++ ["⚠️ Final validation found issues: "
              ++ pyListRepr (final_validation (validate_and_fix_test env T tgt).1).2]) := by
  refine ⟨?_, ?_, ?_⟩
  · intro h
    rw [fix_syntax_errors, h]
  · intro n k h1 h2
    exact fix_syntax_errors_fallback T n k h1 h2
  · intro env tgt hfv
    simp only [validate_and_fix_test] at hfv ⊢
    rw [hfv]
    simp only [Bool.false_eq_true, if_false]
    exact ⟨_, rfl⟩

/-- C2, witness: the fallback clause at the unparseable candidate
`"def f():"` (no indentation retry applies, and the normalized text equals
the original, which still fails to parse). -/
theorem C2_amended_witness :
    (fix_syntax_errors ["def f():"]).1
      = create_minimal_test (syntax_retry_code ["def f():"] .expectedBlockK) := by
  have h := C2_amended_pass1_guarantee ["def f():"]
  exact h.2.1 2 .expectedBlockK (by decide) (by decide)

/-! ## C10 — a placeholder-repaired candidate always trips the policy
check -/

/-- The placeholder's assertion line is in the placeholder, whatever
original text is embedded. -/
theorem mem_create_minimal_test_assert (orig : List String) :
    "    assert True  # Replace with actual test logic"
      ∈ create_minimal_test orig := by
  rw [create_minimal_test]
  apply List.mem_append_left
  apply List.mem_append_left
  decide

/-- The placeholder's test-function header is in the placeholder. -/
theorem mem_create_minimal_test_def (orig : List String) :
    "def test_placeholder():" ∈ create_minimal_test orig := by
  rw [create_minimal_test]
  apply List.mem_append_left
  apply List.mem_append_left
  decide

/-- Splitting a list at any point and inserting a segment preserves
membership. -/
theorem mem_take_append_drop {α : Type} (x : α) (xs mid : List α) (n : Nat)
    (h : x ∈ xs) : x ∈ xs.take n ++ mid ++ xs.drop n := by
  rcases List.mem_append.mp ((List.take_append_drop n xs).symm ▸ h) with h1 | h1
  · exact List.mem_append_left _ (List.mem_append_left _ h1)
  · exact List.mem_append_right _ h1

/-- Pass 2 keeps every non-import line (it maps lines one-to-one and only
inserts new import lines). -/
theorem mem_fix_import_issues_step (env : ValidatorEnv) (tgt : String)
    (l : String) (lines : List String) (hl : l ∈ lines)
    (hni : isImportStart (strip l) = false) :
    l ∈ (fix_import_issues env tgt lines).1 := by
  simp only [fix_import_issues]
  apply mem_take_append_drop
  refine List.mem_map.mpr ⟨l, hl, ?_⟩
  rw [if_neg]
  simp [hni]

/-- Pass 3 keeps every line on which neither of its two textual fixes
fires. -/
theorem mem_fix_undefined_variables_step (l : String) (lines : List String)
    (hl : l ∈ lines) (h1 : containsSub l "chunk_text(" = false)
    (h2 : containsSub l "http://example.com" = false) :
    l ∈ (fix_undefined_variables lines).1 := by
  simp only [fix_undefined_variables]
  refine List.mem_map.mpr ⟨l, hl, ?_⟩
  simp [h1, h2]

/-- Pass 4 only ever prepends a line. -/
theorem mem_fix_mock_issues_step (l : String) (lines : List String)
    (hl : l ∈ lines) : l ∈ (fix_mock_issues lines).1 := by
  rw [fix_mock_issues]
  split_ifs <;> first
    | exact List.mem_cons_of_mem _ hl
    | exact hl

/-- Pass 5 is the identity as soon as some `def test_…` line exists. -/
theorem fix_test_structure_id (lines : List String)
    (h : lines.any (fun l => startsWithS (strip l) "def test_") = true) :
    (fix_test_structure lines).1 = lines := by
  rw [fix_test_structure, if_pos h]

set_option maxRecDepth 8000 in
/-- Whenever pass 1 falls back to the placeholder, the placeholder's
`assert True` line survives every later pass into the returned text. -/
theorem placeholder_assert_in_output (env : ValidatorEnv) (tgt : String)
    (T : List String) (n : Nat) (k : PyErrKind)
    (h1 : pyParse T = .err n k)
    (h2 : pyParse (syntax_retry_code T k) ≠ .ok) :
    "    assert True  # Replace with actual test logic"
      ∈ (validate_and_fix_test env T tgt).1 := by
  have e1 := fix_syntax_errors_fallback T n k h1 h2
  simp only [validate_and_fix_test]
  rw [e1]
  have m1 := mem_create_minimal_test_assert (syntax_retry_code T k)
  have m1d := mem_create_minimal_test_def (syntax_retry_code T k)
  have m2 := mem_fix_import_issues_step env tgt _ _ m1 (by decide)
  have m2d := mem_fix_import_issues_step env tgt _ _ m1d (by decide)
  have m3 := mem_fix_undefined_variables_step _ _ m2 (by decide) (by decide)
  have m3d := mem_fix_undefined_variables_step _ _ m2d (by decide) (by decide)
  have m4 := mem_fix_mock_issues_step _ _ m3
  have m4d := mem_fix_mock_issues_step _ _ m3d
  rw [fix_test_structure_id _ (List.any_eq_true.mpr ⟨_, m4d, by decide⟩)]
  exact m4

/-- Every member of a list appears in its 1-based enumeration. -/
theorem exists_enumFrom_pair {α : Type} (x : α) (l : List α) (nStart : Nat)
    (h : x ∈ l) : ∃ m, (m, x) ∈ List.enumFrom nStart l := by
  obtain ⟨i, hi, rfl⟩ := List.mem_iff_getElem.mp h
  refine ⟨nStart + i, ?_⟩
  rw [List.mk_add_mem_enumFrom_iff_getElem?]
  exact List.getElem?_eq_getElem hi

/-- A line matching a configured pattern yields an error-severity
`forbidden_pattern` violation in that pattern's scan. -/
theorem violations_for_pattern_mem (fp : String) (pat : ForbiddenPattern)
    (lines : List String) (l : String) (hl : l ∈ lines)
    (hm : pat.regexMatch l = true) :
    ∃ v ∈ violations_for_pattern fp pat lines,
      v.severity = "error" ∧ v.rule = "forbidden_pattern" := by
  obtain ⟨m, hmem⟩ := exists_enumFrom_pair l lines 1 hl
  refine ⟨PolicyViolation.mk fp m "forbidden_pattern" "error"
    ("Forbidden pattern \x27" ++ pat.regexSource ++ "\x27 found") (strip l),
    ?_, rfl, rfl⟩
  rw [violations_for_pattern]
  exact List.mem_filterMap.mpr ⟨(m, l), hmem, by simp [hm]⟩

/-- The pattern `assert True\b` is one of the configured deny-list patterns. -/
theorem assert_true_pattern_mem :
    assert_true_pattern ∈ policy_default_config.forbiddenPatterns := by
  show assert_true_pattern ∈ default_forbidden_patterns
  rw [default_forbidden_patterns]
  repeat first
    | exact List.mem_cons_self _ _
    | apply List.mem_cons_of_mem

/-- C10.  For every candidate whose repair falls back to the minimal
placeholder (and any validator environment, rule environment and file
path), the Rule Engine's forbidden-pattern scan of the repaired text
produces at least one error-severity `forbidden_pattern` violation (the
placeholder's `assert True` line matches the deny-list pattern
`assert True\b`); hence the full violation list is never empty and the
policy-compliance score of the repaired text is strictly below 1. -/
theorem C10_placeholder_policy (env : ValidatorEnv) (tgt : String)
    (renv : RuleEnv) (fp : String) (T : List String) (n : Nat) (k : PyErrKind)
    (h1 : pyParse T = .err n k)
    (h2 : pyParse (syntax_retry_code T k) ≠ .ok) :
    (∃ v ∈ check_forbidden_patterns policy_default_config fp
        (validate_and_fix_test env T tgt).1,
      v.severity = "error" ∧ v.rule = "forbidden_pattern")
    ∧ check_file policy_default_config renv fp
        (.ok (validate_and_fix_test env T tgt).1) ≠ []
    ∧ (check_policy_compliance (check_file policy_default_config renv fp
        (.ok (validate_and_fix_test env T tgt).1))).score < 1 := by
  have hmem := placeholder_assert_in_output env tgt T n k h1 h2
  have hmatch : assert_true_pattern.regexMatch
      "    assert True  # Replace with actual test logic" = true := by decide
  obtain ⟨v, hv, hsev, hrule⟩ := violations_for_pattern_mem fp
    assert_true_pattern _ _ hmem hmatch
  have hvf : v ∈ check_forbidden_patterns policy_default_config fp
      (validate_and_fix_test env T tgt).1 := by
    rw [check_forbidden_patterns]
    exact List.mem_flatMap.mpr ⟨assert_true_pattern, assert_true_pattern_mem, hv⟩
  have hsub : v ∈ check_file policy_default_config renv fp
      (.ok (validate_and_fix_test env T tgt).1) := by
    show v ∈ check_file_content policy_default_config renv fp
      (validate_and_fix_test env T tgt).1
    rw [check_file_content]
    exact List.mem_append_left _
      (List.mem_append_left _ (List.mem_append_right _ hvf))
  refine ⟨⟨v, hvf, hsev, hrule⟩, List.ne_nil_of_mem hsub, ?_⟩
  have hpos : 0 < (check_file policy_default_config renv fp
      (.ok (validate_and_fix_test env T tgt).1)).countP
        (fun w => w.severity = "error") :=
    List.countP_pos_iff.mpr ⟨v, hsub, by simp [hsev]⟩
  have hE : (1 : ℚ) ≤ ((check_file policy_default_config renv fp
      (.ok (validate_and_fix_test env T tgt).1)).countP
        (fun w => w.severity = "error") : ℚ) := by
    exact_mod_cast hpos
  have hW : (0 : ℚ) ≤ ((check_file policy_default_config renv fp
      (.ok (validate_and_fix_test env T tgt).1)).countP
        (fun w => w.severity = "warning") : ℚ) := Nat.cast_nonneg _
  simp only [check_policy_compliance]
  have hle : max (0 : ℚ)
      (1 - ((check_file policy_default_config renv fp
          (.ok (validate_and_fix_test env T tgt).1)).countP
            (fun w => w.severity = "error") : ℚ) * (1/5)
        - ((check_file policy_default_config renv fp
          (.ok (validate_and_fix_test env T tgt).1)).countP
            (fun w => w.severity = "warning") : ℚ) * (1/10)) ≤ 4/5 := by
    apply max_le
    · norm_num
    · linarith
  exact lt_of_le_of_lt hle (by norm_num)

/-- C10, witness: the unparseable candidate `"def f():"` with empty
environments. -/
theorem C10_witness :
    ∃ v ∈ check_forbidden_patterns policy_default_config "t.py"
        (validate_and_fix_test emptyValidatorEnv ["def f():"] "").1,
      v.severity = "error" ∧ v.rule = "forbidden_pattern" :=
  (C10_placeholder_policy emptyValidatorEnv "" emptyRuleEnv "t.py"
    ["def f():"] 2 .expectedBlockK (by decide) (by decide)).1

end GenAI
